import Mathlib

/-!
Verification of the `dynamodbexample` account-store client
(`src/dynamodbexample/dynamodb.go`).

The client stores `Account` records in a single backend table `Accounts`
whose partition key is the string attribute `AccountName`; the full record
is serialized under the attribute path `Data.object`.

The Go functions (`insertAccount`, `findAccount`, `listAccounts`,
`deleteAccount`, `listTables`, `createTable`, `contains`, `panicOnError`,
`Main`) are embedded as pure Lean functions.  Fatal `log.Panic` process
termination (and Go runtime panics such as nil-pointer dereference or
index-out-of-range) are modelled as the `.error` side of an
`Except GoPanic _` result, since a panic aborts the whole process and no
Go error value is ever returned to a caller.

The backend database itself is an external collaborator that is not part
of the repository; its single-table semantics (upsert put, key-equality
query with a limit, scan with a limit, idempotent delete) are modelled
from the spec's wire contract as operations on a list of items.
-/

namespace DynamoDBExample

/-- The backend's attribute-value encoding (tagged union).  The client code
only ever constructs and consumes the string (`S`) and map (`M`) arms, so
the embedding carries exactly those.  A map is an association list from
attribute names to values (Go: `map[string]*dynamodb.AttributeValue`). -/
inductive AttributeValue where
  | S : String → AttributeValue
  | M : List (String × AttributeValue) → AttributeValue

/-- An item (row) of the table: attribute name to attribute value, as an
association list standing for the Go map. -/
abbrev Item := List (String × AttributeValue)

/-- Go map lookup: first binding of the key, `none` when absent
(a missing key yields Go's zero value, a nil pointer). -/
def attrLookup (m : List (String × AttributeValue)) (k : String) :
    Option AttributeValue :=
  match m with
  | [] => none
  | (k', v) :: rest => if k' = k then some v else attrLookup rest k

/-- The state of the backend table `Accounts`: its rows. -/
abbrev Table := List Item

/-- `type Account struct { Name, Key, Description string }` with json tags
`name`, `key`, `description`. -/
structure Account where
  Name : String
  Key : String
  Description : String
deriving Repr, DecidableEq

/-- Process-aborting outcomes.  `backendError` is `log.Panic` on a non-nil
error from a backend call (`panicOnError`); `serializationError` is
`log.Panic` on a non-nil `dynamodbattribute` error; `runtimePanic` is a Go
runtime panic (nil-pointer dereference, index out of range). -/
inductive GoPanic where
  | backendError : String → GoPanic
  | serializationError : GoPanic
  | runtimePanic : GoPanic
deriving Repr, DecidableEq

/-- `func panicOnError(e error)`: a non-nil error aborts the process
(`log.Panic(e)`); otherwise execution continues with the value. -/
def panicOnError (r : Except String α) : Except GoPanic α :=
  match r with
  | .error e => .error (.backendError e)
  | .ok a => .ok a

/-- `dynamodbattribute.Marshal(*srv)` on an `Account`: a struct of three
string fields encodes to an `M` map keyed by the json tags.  The `error`
component is always nil for this type, but the code still routes it
through `panicOnError`, so the result type keeps the error side. -/
def marshalAccount (a : Account) : Except String AttributeValue :=
  .ok (.M [("name", .S a.Name), ("key", .S a.Key), ("description", .S a.Description)])

/-- Decoding a single string struct field from an attribute value:
an `S` value yields its string; any other shape is an unmarshal type
error (aborts via `panicOnError`). -/
def decodeStringAttr : AttributeValue → Except GoPanic String
  | .S s => .ok s
  | _ => .error .serializationError

/-- A struct field whose attribute is absent from the `M` map keeps its
zero value (empty string); a present attribute must decode as a string. -/
def decodeField (m : List (String × AttributeValue)) (k : String) :
    Except GoPanic String :=
  match attrLookup m k with
  | none => .ok ""
  | some v => decodeStringAttr v

/-- `dynamodbattribute.Unmarshal(av, acc)` into `&Account{}`.  A nil
attribute value (`none`) decodes as null, leaving the zero-valued
`Account`; an `M` map fills the fields by their json tags; any other
shape is an unmarshal type error. -/
def unmarshalAccount : Option AttributeValue → Except GoPanic Account
  | none => .ok ⟨"", "", ""⟩
  | some (.M m) => do
      let n ← decodeField m "name"
      let k ← decodeField m "key"
      let d ← decodeField m "description"
      .ok ⟨n, k, d⟩
  | some _ => .error .serializationError

/-- The expression `row["Data"].M["object"]` followed by `Unmarshal` that
both `findAccount` and `listAccounts` apply to a row.  If the `Data`
attribute is absent, `row["Data"]` is a nil pointer and the `.M` field
access is a runtime panic.  If `Data` is present but not a map, `.M` is a
nil map, indexing it yields a nil attribute value, and `Unmarshal`
decodes that as null.  Likewise when the map has no `object` key. -/
def decodeRow (row : Item) : Except GoPanic Account :=
  match attrLookup row "Data" with
  | none => .error .runtimePanic
  | some (.M m) => unmarshalAccount (attrLookup m "object")
  | some _ => unmarshalAccount none

/-- Does this row's `AccountName` attribute hold exactly the string
`name`?  This is the backend's key-equality test: the table schema types
`AccountName` as a string, and the key condition compares `S` values. -/
def rowKeyIs (row : Item) (name : String) : Bool :=
  match attrLookup row "AccountName" with
  | some (.S s) => s = name
  | _ => false

/-- Modelled from the spec: the backend's `PutItem` against the
`Accounts` table — an upsert that overwrites any existing row with the
same partition key and stores the new item.  The client always supplies
a string `AccountName`, which the schema requires. -/
def backendPut (t : Table) (item : Item) : Table :=
  match attrLookup item "AccountName" with
  | some (.S s) => t.filter (fun row => !(rowKeyIs row s)) ++ [item]
  | _ => t ++ [item]

/-- Modelled from the spec: the backend's `Query` with key condition
`AccountName = :nameValue` — the rows whose partition key equals the
name, up to the requested limit. -/
def backendQuery (t : Table) (name : String) (limit : Nat) : List Item :=
  (t.filter (fun row => rowKeyIs row name)).take limit

/-- Modelled from the spec: the backend's `Scan` — all rows of the table
up to the requested limit (a single page, no pagination). -/
def backendScan (t : Table) (limit : Nat) : List Item :=
  t.take limit

/-- Modelled from the spec: the backend's `DeleteItem` keyed by
`AccountName = name` — removes the row with that key; succeeds and leaves
the table unchanged when no such row exists. -/
def backendDelete (t : Table) (name : String) : Table :=
  t.filter (fun row => !(rowKeyIs row name))

/-- Modelled from the spec: the backend's `ListTables` with a page limit
— up to `limit` of the backend's table names. -/
def backendListTables (allTables : List String) (limit : Nat) : List String :=
  allTables.take limit

/-- The `QueryOutput` fields the client reads: `*resp.Count` and
`resp.Items`. -/
structure QueryOutput where
  Count : Nat
  Items : List Item

/-- The query response the modelled backend produces: the matching rows
(limit 1, as `findAccount` requests) with `Count` their number. -/
def backendQueryOutput (t : Table) (name : String) : QueryOutput :=
  ⟨(backendQuery t name 1).length, backendQuery t name 1⟩

/-! ### The Go client functions, parameterized on the backend call's response

Each `...Go` function is the body of the corresponding Go function with
the single SDK call abstracted as its response value: `.error e` when the
backend returned a non-nil error, `.ok` with the decoded output
otherwise.  The table-state versions below instantiate the response with
the modelled backend. -/

/-- `func listTables(svc)`: one `ListTables` call (limit 10) through
`panicOnError`, returning `resp.TableNames`. -/
def listTablesGo (resp : Except String (List String)) :
    Except GoPanic (List String) := do
  let names ← panicOnError resp
  .ok names

/-- `func createTable(svc)`: one `CreateTable` call for table `Accounts`
through `panicOnError`; no value is returned to the caller. -/
def createTableGo (resp : Except String Unit) : Except GoPanic Unit := do
  let _ ← panicOnError resp
  .ok ()

/-- The item `insertAccount` writes: partition key `AccountName` set to
the account's name, and the marshalled record wrapped as the single
`object` entry of the `Data` map attribute. -/
def accountItem (a : Account) (data : AttributeValue) : Item :=
  [("AccountName", .S a.Name), ("Data", .M [("object", data)])]

/-- `func insertAccount(svc, srv)`: marshal the account (through
`panicOnError`), then one `PutItem` call (through `panicOnError`). -/
def insertAccountGo (a : Account) (putResp : Except String Unit) :
    Except GoPanic Unit := do
  let _ ← panicOnError (marshalAccount a)
  let _ ← panicOnError putResp
  .ok ()

/-- `func findAccount(svc, name)`: one `Query` call (key condition
`AccountName = :nameValue`, limit 1) through `panicOnError`; if
`*resp.Count == 1` the first item's `Data.object` payload is unmarshalled
(through `panicOnError`) and returned, otherwise the function returns
nil (`none`).  Reading `resp.Items[0]` when `Items` is empty is an
index-out-of-range runtime panic. -/
def findAccountGo (resp : Except String QueryOutput) :
    Except GoPanic (Option Account) := do
  let out ← panicOnError resp
  if out.Count = 1 then
    match out.Items with
    | [] => .error .runtimePanic
    | row :: _ => do
        let acc ← decodeRow row
        .ok (some acc)
  else
    .ok none

/-- `func listAccounts(svc)`: one `Scan` call (limit 100) through
`panicOnError`, then each row's `Data.object` payload unmarshalled in
order (each through `panicOnError`) and collected. -/
def listAccountsGo (resp : Except String (List Item)) :
    Except GoPanic (List Account) := do
  let rows ← panicOnError resp
  rows.mapM decodeRow

/-- `func deleteAccount(svc, name)`: one `DeleteItem` call keyed by
`AccountName = name` through `panicOnError`; no value is returned. -/
def deleteAccountGo (resp : Except String Unit) : Except GoPanic Unit := do
  let _ ← panicOnError resp
  .ok ()

/-- `func contains(list, value)`: linear scan, returning true exactly
when some element equals `value` (exact string comparison). -/
def contains (list : List String) (value : String) : Bool :=
  match list with
  | [] => false
  | s :: rest => if s = value then true else contains rest value

/-! ### The client operations against the modelled backend state -/

/-- `insertAccount` run against table state `t`: the backend `PutItem`
never errors in the state model, so the only fallible step is
marshalling.  Returns the new table state. -/
def insertAccount (t : Table) (a : Account) : Except GoPanic Table := do
  let data ← panicOnError (marshalAccount a)
  .ok (backendPut t (accountItem a data))

/-- `findAccount` run against table state `t`. -/
def findAccount (t : Table) (name : String) : Except GoPanic (Option Account) :=
  findAccountGo (.ok (backendQueryOutput t name))

/-- `listAccounts` run against table state `t` (scan limit 100). -/
def listAccounts (t : Table) : Except GoPanic (List Account) :=
  listAccountsGo (.ok (backendScan t 100))

/-- `deleteAccount` run against table state `t`: the backend delete
succeeds whether or not the row exists.  Returns the new table state. -/
def deleteAccount (t : Table) (name : String) : Except GoPanic Table :=
  .ok (backendDelete t name)

/-- Whether `Main` invokes `createTable`:
`if isLocalDatabase && !contains(listTables(svc), "Accounts")`.
`allTables` is the backend's full table-name list; `listTables` requests
at most 10 of them. -/
def mainCreatesTable (isLocalDatabase : Bool) (allTables : List String) : Bool :=
  isLocalDatabase && !(contains (backendListTables allTables 10) "Accounts")

/-- The two accounts the `Main` demonstration script writes. -/
def fooAccount : Account := ⟨"Foo", "123456", "My first account"⟩

def fumAccount : Account := ⟨"Fum", "654321", "My seccond account"⟩

/-- What `Main` observes from running the `Main` demonstration script
over table state `t0` (after the optional table creation): the result of
`findAccount "Foo"`, the two `listAccounts` results, and the final table
state.  The script is: insert Foo; find "Foo"; insert Fum; list; delete
"Foo"; delete "Fum"; list. -/
def mainScript (t0 : Table) :
    Except GoPanic (Option Account × List Account × List Account × Table) := do
  let t1 ← insertAccount t0 fooAccount
  let found ← findAccount t1 "Foo"
  let t2 ← insertAccount t1 fumAccount
  let firstListing ← listAccounts t2
  let t3 ← deleteAccount t2 "Foo"
  let t4 ← deleteAccount t3 "Fum"
  let secondListing ← listAccounts t4
  .ok (found, firstListing, secondListing, t4)

/-- Putting a sequence of accounts one after another, the driver pattern
of the demonstration script and of the scan property. -/
def insertAll (t : Table) (accs : List Account) : Except GoPanic Table :=
  match accs with
  | [] => .ok t
  | a :: rest => (insertAccount t a).bind (fun t1 => insertAll t1 rest)

/-- A row whose `Data.object` payload is not a map: unmarshalling it into
an `Account` is a deserialization failure. -/
def badDataRow : Item :=
  [("AccountName", .S "Bad"), ("Data", .M [("object", .S "junk")])]

/-! ### Helper lemmas -/

/-- The row `insertAccount` writes for an account, with the marshalled
payload filled in. -/
def accountRow (a : Account) : Item :=
  accountItem a (.M [("name", .S a.Name), ("key", .S a.Key), ("description", .S a.Description)])

theorem insertAccount_eq (t : Table) (a : Account) :
    insertAccount t a = .ok (backendPut t (accountRow a)) := rfl

theorem attrLookup_accountRow_key (a : Account) :
    attrLookup (accountRow a) "AccountName" = some (.S a.Name) := rfl

theorem rowKeyIs_accountRow (a : Account) (s : String) :
    rowKeyIs (accountRow a) s = decide (a.Name = s) := rfl

theorem backendPut_accountRow (t : Table) (a : Account) :
    backendPut t (accountRow a)
      = t.filter (fun row => !(rowKeyIs row a.Name)) ++ [accountRow a] := rfl

theorem decodeRow_accountRow (a : Account) : decodeRow (accountRow a) = .ok a := rfl

theorem filter_not_filter (p : Item → Bool) (l : List Item) :
    (l.filter (fun row => !(p row))).filter p = [] := by
  rw [List.filter_filter]
  have h : ∀ row ∈ l, ¬(p row && !(p row)) = true := by
    intro row _
    cases p row <;> simp
  exact List.filter_eq_nil_iff.mpr h

theorem backendQuery_put_self (t : Table) (a : Account) (limit : Nat) :
    backendQuery (backendPut t (accountRow a)) a.Name limit
      = [accountRow a].take limit := by
  rw [backendPut_accountRow]
  unfold backendQuery
  rw [List.filter_append, filter_not_filter]
  have : List.filter (fun row => rowKeyIs row a.Name) [accountRow a] = [accountRow a] := by
    simp [rowKeyIs_accountRow]
  rw [this]
  simp

theorem findAccount_put_self (t : Table) (a : Account) :
    findAccount (backendPut t (accountRow a)) a.Name = .ok (some a) := by
  unfold findAccount backendQueryOutput
  rw [backendQuery_put_self]
  rfl

theorem findAccountGo_ok (out : QueryOutput) :
    findAccountGo (.ok out)
      = if out.Count = 1 then
          match out.Items with
          | [] => .error .runtimePanic
          | row :: _ => (decodeRow row).bind (fun acc => .ok (some acc))
        else .ok none := rfl

theorem findAccount_of_filter_nil (t : Table) (name : String)
    (h : t.filter (fun row => rowKeyIs row name) = []) :
    findAccount t name = .ok none := by
  have hq : backendQueryOutput t name = ⟨0, []⟩ := by
    unfold backendQueryOutput backendQuery
    rw [h]
    rfl
  unfold findAccount
  rw [hq]
  rfl

theorem backendPut_fresh (t : Table) (a : Account)
    (h : ∀ row ∈ t, rowKeyIs row a.Name = false) :
    backendPut t (accountRow a) = t ++ [accountRow a] := by
  rw [backendPut_accountRow]
  congr 1
  exact List.filter_eq_self.mpr (fun row hr => by simp [h row hr])

theorem insertAll_fresh (accs : List Account) (t : Table)
    (hdisj : ∀ row ∈ t, ∀ a ∈ accs, rowKeyIs row a.Name = false)
    (hnd : (accs.map Account.Name).Nodup) :
    insertAll t accs = .ok (t ++ accs.map accountRow) := by
  induction accs generalizing t with
  | nil => simp [insertAll]
  | cons a rest ih =>
    have hnd2 : (a.Name :: rest.map Account.Name).Nodup := by simpa using hnd
    have hput : backendPut t (accountRow a) = t ++ [accountRow a] :=
      backendPut_fresh t a (fun row hr => hdisj row hr a (List.mem_cons_self a rest))
    have hstep : insertAccount t a = .ok (t ++ [accountRow a]) := by
      rw [insertAccount_eq, hput]
    have hdisj' : ∀ row ∈ t ++ [accountRow a], ∀ b ∈ rest, rowKeyIs row b.Name = false := by
      intro row hr b hb
      rcases List.mem_append.mp hr with h1 | h1
      · exact hdisj row h1 b (List.mem_cons_of_mem a hb)
      · have hrow : row = accountRow a := by simpa using h1
        subst hrow
        rw [rowKeyIs_accountRow]
        apply decide_eq_false
        intro heq
        exact (List.nodup_cons.mp hnd2).1 (heq ▸ List.mem_map_of_mem Account.Name hb)
    calc insertAll t (a :: rest)
        = (insertAccount t a).bind (fun t1 => insertAll t1 rest) := rfl
      _ = insertAll (t ++ [accountRow a]) rest := by rw [hstep]; rfl
      _ = .ok ((t ++ [accountRow a]) ++ rest.map accountRow) :=
          ih (t ++ [accountRow a]) hdisj' (List.nodup_cons.mp hnd2).2
      _ = .ok (t ++ (a :: rest).map accountRow) := by simp

theorem mapM_decodeRow_accountRow (accs : List Account) :
    (accs.map accountRow).mapM decodeRow = .ok accs := by
  induction accs with
  | nil => rfl
  | cons a rest ih =>
    rw [List.map_cons, List.mapM_cons, decodeRow_accountRow, ih]
    rfl

theorem listAccounts_accountRows (accs : List Account) (h : accs.length ≤ 100) :
    listAccounts (accs.map accountRow) = .ok accs := by
  unfold listAccounts backendScan
  rw [List.take_of_length_le (by simpa using h)]
  exact mapM_decodeRow_accountRow accs

/-! ### The claims -/

/-- Claim C1: put-then-find round trip.  For every `Account` (any name,
key, description) and every table state in which partition keys are
unique, `insertAccount` with that record followed by `findAccount` with
the record's name returns an `Account` equal to the stored one in all
three fields. -/
theorem put_then_find_roundtrip (t : Table) (a : Account)
    (_hu : ∀ s, t.countP (fun row => rowKeyIs row s) ≤ 1) :
    (insertAccount t a).bind (fun t1 => findAccount t1 a.Name)
      = .ok (some a) := by
  rw [insertAccount_eq]
  exact findAccount_put_self t a

/-- Witness for C1: the round trip at a concrete account on the empty
table, whose keys are trivially unique. -/
theorem put_then_find_roundtrip_witness :
    (∀ s, ([] : Table).countP (fun row => rowKeyIs row s) ≤ 1) ∧
    (insertAccount [] fooAccount).bind (fun t1 => findAccount t1 fooAccount.Name)
      = .ok (some fooAccount) :=
  ⟨fun s => by simp, put_then_find_roundtrip [] fooAccount (fun s => by simp)⟩

/-- Claim C2 (counterexample): the claim says the script's final
`listAccounts` returns only the "Fum" record, but `Main` deletes both
"Foo" and "Fum" before the second listing, so the final listing is
empty, which differs from a listing containing the "Fum" record. -/
theorem main_script_counterexample :
    mainScript [] = .ok (some fooAccount, [fooAccount, fumAccount], [], []) ∧
    ([] : List Account) ≠ [fumAccount] :=
  ⟨rfl, by simp⟩

/-- Claim C2 (amended): run on an empty table, the fixed script inserts
`{Foo, 123456, My first account}`, `findAccount "Foo"` returns exactly
that record, it inserts the "Fum" record, `listAccounts` returns both,
it deletes "Foo" and then also deletes "Fum", and the final
`listAccounts` returns no records. -/
theorem main_script_behaviour :
    mainScript [] = .ok (some fooAccount, [fooAccount, fumAccount], [], []) := rfl

/-- Claim C3: `findAccount` returns absent (`none`) whenever the query
response's `Count` is anything other than exactly 1; in particular it
returns absent, not an error, on the empty table and on any table with
no row keyed by the name (a count of 0). -/
theorem findAccount_absent_when_count_ne_one :
    (∀ out : QueryOutput, out.Count ≠ 1 → findAccountGo (.ok out) = .ok none) ∧
    (∀ name, findAccount [] name = .ok none) ∧
    (∀ (t : Table) (name : String),
      (∀ row ∈ t, rowKeyIs row name = false) → findAccount t name = .ok none) := by
  refine ⟨?_, ?_, ?_⟩
  · intro out h
    rw [findAccountGo_ok, if_neg h]
  · intro name
    rfl
  · intro t name h
    exact findAccount_of_filter_nil t name
      (List.filter_eq_nil_iff.mpr (fun row hr => by simp [h row hr]))

/-- Witness for C3: a response of count 0, the empty table, and a
one-row table whose only key differs from the looked-up name. -/
theorem findAccount_absent_witness :
    ((0 : Nat) ≠ 1 ∧ findAccountGo (.ok ⟨0, []⟩) = .ok none) ∧
    findAccount [] "Nobody" = .ok none ∧
    ((∀ row ∈ ([accountRow fumAccount] : Table), rowKeyIs row "Nobody" = false) ∧
      findAccount [accountRow fumAccount] "Nobody" = .ok none) :=
  ⟨⟨by decide, findAccount_absent_when_count_ne_one.1 ⟨0, []⟩ (by decide)⟩,
   findAccount_absent_when_count_ne_one.2.1 "Nobody",
   ⟨by decide, findAccount_absent_when_count_ne_one.2.2 [accountRow fumAccount] "Nobody"
     (by decide)⟩⟩

/-- Claim C4: put is an upsert.  For any two accounts with the same name
and any table state, putting the first and then the second leaves only
the second record retrievable by `findAccount` with that name. -/
theorem put_is_upsert (t : Table) (a b : Account) (hname : a.Name = b.Name) :
    (insertAccount t a).bind (fun t1 =>
      (insertAccount t1 b).bind (fun t2 => findAccount t2 a.Name))
      = .ok (some b) := by
  rw [hname]
  exact findAccount_put_self (backendPut t (accountRow a)) b

/-- Witness for C4: two concrete accounts sharing the name "Foo" with
different key and description, on the empty table. -/
theorem put_is_upsert_witness :
    (fooAccount.Name = (Account.mk "Foo" "999" "Other").Name) ∧
    (insertAccount [] fooAccount).bind (fun t1 =>
      (insertAccount t1 (Account.mk "Foo" "999" "Other")).bind (fun t2 =>
        findAccount t2 fooAccount.Name))
      = .ok (some (Account.mk "Foo" "999" "Other")) :=
  ⟨rfl, put_is_upsert [] fooAccount (Account.mk "Foo" "999" "Other") rfl⟩

/-- Claim C5: delete removes visibility.  For every name and every table
state, once `deleteAccount name` has returned successfully,
`findAccount name` on the resulting state returns absent. -/
theorem delete_removes_visibility (t : Table) (name : String) (t' : Table)
    (hdel : deleteAccount t name = .ok t') :
    findAccount t' name = .ok none := by
  unfold deleteAccount at hdel
  injection hdel with h
  subst h
  exact findAccount_of_filter_nil (backendDelete t name) name
    (filter_not_filter (fun row => rowKeyIs row name) t)

/-- Witness for C5: deleting "Foo" from a one-row table holding the
"Foo" record, then finding "Foo". -/
theorem delete_removes_visibility_witness :
    deleteAccount [accountRow fooAccount] "Foo" = .ok [] ∧
    findAccount [] "Foo" = .ok none :=
  ⟨rfl, delete_removes_visibility [accountRow fooAccount] "Foo" [] rfl⟩

/-- Claim C6: delete is idempotent.  For every name and every table
state containing no row keyed by that name, `deleteAccount` succeeds
(no error, no panic) and leaves the table unchanged. -/
theorem delete_idempotent (t : Table) (name : String)
    (h : ∀ row ∈ t, rowKeyIs row name = false) :
    deleteAccount t name = .ok t := by
  unfold deleteAccount backendDelete
  congr 1
  exact List.filter_eq_self.mpr (fun row hr => by simp [h row hr])

/-- Witness for C6: deleting the absent name "Missing" from a one-row
table leaves it unchanged. -/
theorem delete_idempotent_witness :
    (∀ row ∈ ([accountRow fooAccount] : Table), rowKeyIs row "Missing" = false) ∧
    deleteAccount [accountRow fooAccount] "Missing" = .ok [accountRow fooAccount] :=
  ⟨by decide, delete_idempotent [accountRow fooAccount] "Missing" (by decide)⟩

/-- Claim C7: scan returns all puts up to the page cap.  Putting N ≤ 100
accounts with pairwise-distinct names into an initially empty table,
`listAccounts` returns exactly N records whose multiset of field triples
equals what was stored (stated as a permutation); and the scan is
limited to 100 rows, so a larger table yields only 100 of its rows. -/
theorem listAccounts_after_puts :
    (∀ accs : List Account,
      accs.length ≤ 100 → (accs.map Account.Name).Nodup →
      ∃ l : List Account,
        (insertAll [] accs).bind listAccounts = .ok l ∧
        l.length = accs.length ∧ l.Perm accs) ∧
    (∀ t : Table, (backendScan t 100).length = min 100 t.length) := by
  constructor
  · intro accs hlen hnd
    refine ⟨accs, ?_, rfl, List.Perm.refl accs⟩
    have hins : insertAll [] accs = .ok (accs.map accountRow) := by
      have h := insertAll_fresh accs [] (fun row hr => absurd hr (List.not_mem_nil row)) hnd
      simpa using h
    rw [hins]
    exact listAccounts_accountRows accs hlen
  · intro t
    unfold backendScan
    exact List.length_take 100 t

/-- Witness for C7: two distinct-named accounts put into the empty
table are both returned by `listAccounts`. -/
theorem listAccounts_after_puts_witness :
    (([fooAccount, fumAccount] : List Account).length ≤ 100 ∧
      (([fooAccount, fumAccount] : List Account).map Account.Name).Nodup) ∧
    ∃ l : List Account,
      (insertAll [] [fooAccount, fumAccount]).bind listAccounts = .ok l ∧
      l.length = ([fooAccount, fumAccount] : List Account).length ∧
      l.Perm [fooAccount, fumAccount] :=
  ⟨⟨by decide, by decide⟩,
   listAccounts_after_puts.1 [fooAccount, fumAccount] (by decide) (by decide)⟩

/-- Claim C8: fail-fast error policy.  For each of the six operations, a
backend error makes the operation end in the process-aborting `.error`
outcome (no error value is returned to a caller, since the success type
carries none, and there is no retry or logging-and-continue result); a
row whose payload fails to deserialize likewise aborts `findAccount`
and `listAccounts`.  (Serializing an `Account` — three plain strings —
cannot fail, though its error is still routed through `panicOnError`.) -/
theorem fail_fast_error_policy (e : String) :
    listTablesGo (.error e) = .error (.backendError e) ∧
    createTableGo (.error e) = .error (.backendError e) ∧
    (∀ a : Account, insertAccountGo a (.error e) = .error (.backendError e)) ∧
    findAccountGo (.error e) = .error (.backendError e) ∧
    listAccountsGo (.error e) = .error (.backendError e) ∧
    deleteAccountGo (.error e) = .error (.backendError e) ∧
    findAccountGo (.ok ⟨1, [badDataRow]⟩) = .error .serializationError ∧
    listAccountsGo (.ok [badDataRow]) = .error .serializationError :=
  ⟨rfl, rfl, fun _ => rfl, rfl, rfl, rfl, rfl, rfl⟩

/-- Claim C9: storage representation.  Every put writes a row whose
`AccountName` attribute is the account's name and whose `Data` attribute
nests the full marshalled three-field record under the single key
`object` — the name thus appears both as the partition key and as the
`name` field inside the payload. -/
theorem put_storage_representation (a : Account) (t : Table) :
    ∃ item : Item,
      insertAccount t a = .ok (backendPut t item) ∧
      attrLookup item "AccountName" = some (.S a.Name) ∧
      attrLookup item "Data"
        = some (.M [("object",
            .M [("name", .S a.Name), ("key", .S a.Key),
                ("description", .S a.Description)])]) :=
  ⟨accountRow a, rfl, rfl, rfl⟩

/-- Claim C10: `Main` attempts table creation exactly when the local
flag is set and the exact string "Accounts" is not among the at most 10
table names returned by `listTables`; in remote mode it never does.  The
membership test is an exact, case-sensitive string comparison. -/
theorem create_table_only_when_local_and_missing
    (isLocalDatabase : Bool) (allTables : List String) :
    mainCreatesTable false allTables = false ∧
    mainCreatesTable isLocalDatabase allTables
      = (isLocalDatabase && !(contains (allTables.take 10) "Accounts")) ∧
    contains ["Accounts"] "Accounts" = true ∧
    contains ["accounts", "ACCOUNTS"] "Accounts" = false :=
  ⟨rfl, rfl, by decide, by decide⟩

end DynamoDBExample
